import Mathlib

/-!
Verification of the Linear-Referencing Alignment & Signal-Cleaning Engine
of `src/app_cips.py` (repository App-CIPS-Ingenieria).

The Python source works on pandas DataFrames.  We embed a DataFrame as a
column-major table: a list of named columns, each column a list of cells.
A cell (`Val`) is a rational number, a string, or null (pandas `NaN`/`None`).
Library calls whose internals are external to this repository
(pyproj transformations, shapely geometry operations, numpy's random
generator, Python's float-to-string formatting) are parameters of the
embedding, collected in an `Env` structure; everything the claims depend on
(sklearn's ordinary least squares, pandas rolling median/mean, pandas
`corr`, `merge`, `drop_duplicates`, `fillna`, numpy `linspace` and
round-half-even rounding) is embedded explicitly from the source.
-/

namespace CIPS

/-- A cell of a pandas DataFrame: numeric, string, or missing (NaN/None). -/
inductive Val where
  | num (q : ℚ)
  | str (s : String)
  | null
deriving DecidableEq, Repr

/-- `pd.isna` on a cell: only the missing marker is "na"
(numbers and strings are not). -/
def Val.isNull : Val → Bool
  | .null => true
  | _ => false

/-- Read a cell as a rational if it is numeric.  Non-numeric cells map to
`none`; within the engine's input contract the numeric columns contain only
numbers and NaN, so this coincides with pandas float-column semantics. -/
def Val.toQ : Val → Option ℚ
  | .num q => some q
  | _ => none

/-- Embed an optional rational back into a cell (`none` becomes NaN). -/
def valOfOpt : Option ℚ → Val
  | some q => .num q
  | none => .null

/-- A DataFrame: a declared row count plus named columns.  Well-formedness
(`DFrame.WF`) states every column holds exactly `nrows` cells. -/
structure DFrame where
  nrows : Nat
  cols : List (String × List Val)
deriving DecidableEq, Repr

/-- Every column of the frame has exactly `nrows` cells. -/
def DFrame.WF (df : DFrame) : Prop :=
  ∀ c ∈ df.cols, c.2.length = df.nrows

instance (df : DFrame) : Decidable df.WF := by
  unfold DFrame.WF; infer_instance

/-- `name in df.columns`. -/
def DFrame.hasCol (df : DFrame) (name : String) : Bool :=
  df.cols.any (fun c => c.1 = name)

/-- `df[name]`: the cells of the first column called `name`
(`[]` when absent; every access in the embedded code is guarded by
`hasCol`, mirroring Python's KeyError control flow). -/
def DFrame.getCol (df : DFrame) (name : String) : List Val :=
  match df.cols.find? (fun c => c.1 = name) with
  | some c => c.2
  | none => []

/-- Replace the first column called `name`, or append a new column at the
end when absent — pandas column-assignment semantics. -/
def setColAux (name : String) (xs : List Val) : List (String × List Val) → List (String × List Val)
  | [] => [(name, xs)]
  | c :: cs => if c.1 = name then (name, xs) :: cs else c :: setColAux name xs cs

/-- `df[name] = xs`. -/
def DFrame.setCol (df : DFrame) (name : String) (xs : List Val) : DFrame :=
  ⟨df.nrows, setColAux name xs df.cols⟩

/-- `df.drop(columns=names)` (ignoring absent names, as the source does). -/
def DFrame.dropCols (df : DFrame) (names : List String) : DFrame :=
  ⟨df.nrows, df.cols.filter (fun c => !(names.contains c.1))⟩

/-- `df.rename(columns={old: new})` for a single entry. -/
def DFrame.renameCol (df : DFrame) (old new : String) : DFrame :=
  ⟨df.nrows, df.cols.map (fun c => if c.1 = old then (new, c.2) else c)⟩

/-! ### Numeric helpers (numpy / pandas semantics) -/

/-- numpy's round-half-to-even on a rational, to an integer. -/
def roundHalfEven (q : ℚ) : ℤ :=
  let f : ℤ := ⌊q⌋
  let frac : ℚ := q - f
  if frac < 1/2 then f
  else if 1/2 < frac then f + 1
  else if Even f then f else f + 1

/-- `x.round(d)`: numpy rounding to `d` decimal places (half to even). -/
def roundTo (d : ℕ) (q : ℚ) : ℚ :=
  (roundHalfEven (q * (10 : ℚ) ^ d) : ℚ) / (10 : ℚ) ^ d

/-- Mean of a list of rationals (0 for the empty list, which is only ever
taken under emptiness guards mirroring the source). -/
def meanQ (xs : List ℚ) : ℚ := xs.sum / xs.length

/-- Centered cross-deviation sum Σ (xᵢ − x̄)(yᵢ − ȳ) over paired lists:
the numerator of covariance/correlation. -/
def sXY (xs ys : List ℚ) : ℚ :=
  ((xs.zip ys).map (fun p => (p.1 - meanQ xs) * (p.2 - meanQ ys))).sum

/-- The source's test `corr < 0` on pandas Pearson correlation, embedded by
sign analysis: `r = sXY / sqrt(sXX · sYY)` is negative exactly when both
centered square sums are positive (otherwise pandas yields NaN, and
`NaN < 0` is false in Python) and the cross sum is negative. -/
def corrNeg (xs ys : List ℚ) : Prop :=
  0 < sXY xs xs ∧ 0 < sXY ys ys ∧ sXY xs ys < 0

instance (xs ys : List ℚ) : Decidable (corrNeg xs ys) := by
  unfold corrNeg; infer_instance

/-- Insertion into a sorted list (ascending). -/
def insertSorted (x : ℚ) : List ℚ → List ℚ
  | [] => [x]
  | y :: ys => if x ≤ y then x :: y :: ys else y :: insertSorted x ys

/-- Insertion sort, ascending. -/
def sortQ (xs : List ℚ) : List ℚ := xs.foldr insertSorted []

/-- Median of a list, pandas convention: middle element for odd length,
mean of the two middle elements for even length (0 for empty, which is
guarded at every call site). -/
def medianQ (xs : List ℚ) : ℚ :=
  let s := sortQ xs
  let n := s.length
  if n % 2 = 1 then s.getD (n / 2) 0
  else (s.getD (n / 2 - 1) 0 + s.getD (n / 2) 0) / 2

/-- The cells a centered rolling window of width `w` sees at position `i`
of a column: pandas `rolling(window=w, center=True)` shifts the trailing
window end by `(w-1)/2`, so the window is rows
`i + (w-1)/2 + 1 - w` through `i + (w-1)/2`, clipped to the column
(for odd `w = 2k+1` that is `[i-k, i+k]`; for even `w = 2k` it is
`[i-k, i+k-1]`). -/
def windowSlice {α : Type} (w i : ℕ) (xs : List α) : List α :=
  (xs.take (i + (w - 1) / 2 + 1)).drop (i + (w - 1) / 2 + 1 - w)

/-- `series.rolling(window=w, center=True, min_periods=1).median()`:
NaN cells are skipped inside each window; a window with no numeric cell
yields NaN. -/
def rollingMedianO (w : ℕ) (xs : List (Option ℚ)) : List (Option ℚ) :=
  (List.range xs.length).map (fun i =>
    let vs := (windowSlice w i xs).filterMap id
    if vs.isEmpty then none else some (medianQ vs))

/-- `series.rolling(window=w, center=True, min_periods=1).mean()`. -/
def rollingMeanO (w : ℕ) (xs : List (Option ℚ)) : List (Option ℚ) :=
  (List.range xs.length).map (fun i =>
    let vs := (windowSlice w i xs).filterMap id
    if vs.isEmpty then none else some (meanQ vs))

/-- `np.linspace(a, b, n)`. -/
def linspaceQ (a b : ℚ) (n : ℕ) : List ℚ :=
  if n ≤ 1 then (List.range n).map (fun _ => a)
  else (List.range n).map (fun i : ℕ => a + (i : ℚ) * (b - a) / ((n : ℚ) - 1))

/-! ### Ordinary least squares (`sklearn.linear_model.LinearRegression`) -/

/-- Slope of the 1-D least-squares line through the points: `Sxy / Sxx`.
When `Sxx = 0` rational division yields 0, which coincides with sklearn's
minimum-norm solution for a degenerate design matrix. -/
def olsSlope (pts : List (ℚ × ℚ)) : ℚ :=
  sXY (pts.map Prod.fst) (pts.map Prod.snd) / sXY (pts.map Prod.fst) (pts.map Prod.fst)

/-- Intercept of the 1-D least-squares line: `ȳ − slope·x̄`. -/
def olsIntercept (pts : List (ℚ × ℚ)) : ℚ :=
  meanQ (pts.map Prod.snd) - olsSlope pts * meanQ (pts.map Prod.fst)

/-- Sum of squared errors of the affine model `y = a·x + b` on the points;
used to state that `olsSlope`/`olsIntercept` are the least-squares fit. -/
def sse (pts : List (ℚ × ℚ)) (a b : ℚ) : ℚ :=
  (pts.map (fun p => (p.2 - a * p.1 - b) ^ 2)).sum

/-- The rows where both series are present — used both as the regression
sample of the Coordinate Normalizer and as
`gdf[["PK_equipo", "PK_geom_m"]].dropna()` in the Direction Resolver. -/
def pairedRows (xs ys : List (Option ℚ)) : List (ℚ × ℚ) :=
  (xs.zip ys).filterMap (fun p =>
    match p.1, p.2 with
    | some x, some y => some (x, y)
    | _, _ => none)

/-- Fill the missing cells of `ys` with the least-squares prediction from
`xs`, fitting over the rows where `ys` is present. -/
def fillOLS (xs ys : List (Option ℚ)) : List (Option ℚ) :=
  let pts := pairedRows xs ys
  let a := olsSlope pts
  let b := olsIntercept pts
  (xs.zip ys).map (fun p =>
    match p.2 with
    | some y => some y
    | none => p.1.map (fun x => a * x + b))

/-- Source lines 121–126, one coordinate: `xs` is the `PK_equipo` column,
`ys` the coordinate column, both as optional rationals.  If the coordinate
has missing cells and more than 2 present cells, fit OLS on the rows with
the coordinate present and predict the missing rows.  `none` models the
sklearn `ValueError` on NaN input (caught by the outer handler of
`procesar_geometria_lrs`): the fit rows and the predicted rows together
cover every row, so the exception fires exactly when some `PK_equipo`
cell is missing while imputation is attempted.  (When every `xs` cell is
present the regression sample — rows with the coordinate present — is
exactly `pairedRows xs ys`.) -/
def imputeSeries (xs ys : List (Option ℚ)) : Option (List (Option ℚ)) :=
  if (ys.any (fun y => y.isNone)) ∧ 2 < ys.countP (fun y => y.isSome) then
    if xs.any (fun x => x.isNone) then none
    else some (fillOLS xs ys)
  else some ys

/-! ### Signal cleaning (source lines 369–384) -/

/-- Spike rejection for one voltage channel: flag cells whose absolute
deviation from the centered rolling median of width `w` exceeds `t`, and
replace each flagged cell by that (original) rolling median.  NaN cells
are never flagged (`NaN > t` is false in pandas) and pass through. -/
def spikeClean (w : ℕ) (t : ℚ) (xs : List (Option ℚ)) : List (Option ℚ) :=
  (xs.zip (rollingMedianO w xs)).map (fun p =>
    match p.1, p.2 with
    | some v, some m => if t < |v - m| then some m else some v
    | x, _ => x)

/-- Cosmetic smoothing: `rolling(window=ws, center=True, min_periods=1)
.mean().round(2)` over the spike-corrected series. -/
def smoothSeries (ws : ℕ) (xs : List (Option ℚ)) : List (Option ℚ) :=
  (rollingMeanO ws xs).map (Option.map (roundTo 2))

/-- One channel through section F: spike rejection, then optional
smoothing. -/
def cleanChannel (w : ℕ) (t : ℚ) (smooth : Bool) (ws : ℕ)
    (xs : List (Option ℚ)) : List (Option ℚ) :=
  if smooth then smoothSeries ws (spikeClean w t xs) else spikeClean w t xs

/-! ### Direction resolution (source lines 170–175) -/

/-- The Direction Resolver: with more than 5 paired values and a negative
Pearson correlation between equipment distance and raw station, every
station (missing ones included, which stay missing) is replaced by
`length − station`; otherwise the stations are returned unchanged. -/
def directionResolve (len : ℚ) (pkE pkG : List (Option ℚ)) : List (Option ℚ) :=
  if 5 < (pairedRows pkE pkG).length ∧
      corrNeg ((pairedRows pkE pkG).map Prod.fst) ((pairedRows pkE pkG).map Prod.snd) then
    pkG.map (Option.map (fun y => len - y))
  else pkG

/-! ### External collaborators

The engine calls pyproj, shapely and numpy's random generator; these are
libraries outside this repository, so they enter the embedding as
parameters (`Env`).  Everything algorithmic in `app_cips.py` itself is
embedded concretely. -/

/-- A planar point (shapely `Point` after projection). -/
def Pt : Type := ℚ × ℚ

/-- A polyline (shapely `LineString`): its vertex list is irrelevant to the
claims, so lines are abstract vertex lists. -/
def Line : Type := List Pt

/-- A geometry read from the reference file: the source keeps
`LineString`s, flattens `MultiLineString`s, and silently skips any other
geometry type. -/
inductive Geom where
  | line (l : Line)
  | multi (ls : List Line)
  | other

/-- Source lines 148–155: collect simple polylines, flattening multi-part
geometries. -/
def lineasSimples : List Geom → List Line
  | [] => []
  | .line l :: gs => l :: lineasSimples gs
  | .multi ls :: gs => ls ++ lineasSimples gs
  | .other :: gs => lineasSimples gs

/-- Python's `max(items, key=f)`: first maximal element (`[]` only for an
empty list, which shapely's `linemerge` never produces from nonempty
input). -/
def argmaxFirst (f : Line → ℚ) : List Line → Line
  | [] => []
  | l :: ls => ls.foldl (fun best x => if f best < f x then x else best) l

/-- The external collaborators of the engine.  `transform`/`transformBack`
are the pyproj EPSG:4326↔3857 transformers applied pointwise;
`loadDucto` is `gpd.read_file` plus CRS normalisation (its result already
in the planar system); `linemerge` returns the connected components shapely
produces (a singleton when everything merges); `lineLength`, `lineProject`
(arc length of the nearest point) and `lineInterpolate` are shapely's
`length`, `project` and `interpolate`; `seedFn`/`uniform` model numpy's
global generator (`seed` maps a seed to a generator state, `uniform s i`
is the `i`-th draw from state `s`); `pyStrNum` is Python's `str()` on a
float (used by `astype(str)`). -/
structure Env where
  transform : ℚ → ℚ → ℚ × ℚ
  transformBack : ℚ → ℚ → ℚ × ℚ
  loadDucto : Except String (List Geom)
  linemerge : List Line → List Line
  lineLength : Line → ℚ
  lineProject : Line → Pt → ℚ
  lineInterpolate : Line → ℚ → Pt
  seedFn : ℕ → ℕ
  uniform : ℕ → ℕ → ℚ
  pyStrNum : ℚ → String

/-- UI configuration consumed by `procesar_archivo_completo` (sliders and
manual-mode fields of the sidebar). -/
structure Config where
  umbral : ℚ
  ventanaDet : ℕ
  aplicarSmooth : Bool
  ventanaSmooth : ℕ
  pkInicial : ℚ
  pkFinal : ℚ

/-! ### Geospatial stage (`procesar_geometria_lrs`, source lines 108–192) -/

/-- Modeled message for the catch-all handler of line 191; the Python text
appends `str(e)`, which the embedding does not reproduce. -/
def msgInterno : String := "Error interno geoespacial"

def msgSinGPS : String := "Error: No hay coordenadas GPS válidas en el archivo."

def msgSinLineas : String := "Error: El archivo de referencia no tiene líneas válidas."

def msgCargaGeo : String := "Error cargando archivo geo"

/-- Coordinate imputation for one coordinate column (source lines 121–126)
with the exception control flow made explicit: `.error` carries the frame
as it stands when an exception reaches the outer handler (missing column →
`KeyError`; non-numeric cell reaching sklearn → `ValueError`). -/
def imputeStep (df : DFrame) (coord : String) : Except DFrame DFrame :=
  if ¬ df.hasCol coord then .error df
  else if ((df.getCol coord).any Val.isNull) ∧
      2 < (df.getCol coord).countP (fun v => ¬ v.isNull) then
    if ¬ df.hasCol "PK_equipo" then .error df
    else if ((df.getCol "PK_equipo").any fun v => v.toQ.isNone) ∨
        ((df.getCol coord).any fun v => ¬ v.isNull ∧ v.toQ.isNone) then .error df
    else
      match imputeSeries ((df.getCol "PK_equipo").map Val.toQ)
          ((df.getCol coord).map Val.toQ) with
      | none => .error df
      | some zs => .ok (df.setCol coord (zs.map valOfOpt))
  else .ok df

/-- Null-propagating pointwise application of a pyproj transformer. -/
def liftTransform (f : ℚ → ℚ → ℚ × ℚ) (a b : Option ℚ) : Option ℚ × Option ℚ :=
  match a, b with
  | some x, some y => ((f x y).1, (f x y).2)
  | _, _ => (none, none)

/-- Source line 114: the column renames at entry of the geospatial
stage. -/
def renombrar (df0 : DFrame) : DFrame :=
  ((df0.renameCol "Dist From Start" "PK_equipo").renameCol
    "Latitude" "Lat").renameCol "Longitude" "Long"

/-- Source line 133: the planar coordinates of every row,
`t.transform(df["Long"], df["Lat"])` pointwise (null-propagating). -/
def xyCols (env : Env) (df : DFrame) : List (Option ℚ × Option ℚ) :=
  List.zipWith (fun a b => liftTransform env.transform a b)
    ((df.getCol "Long").map Val.toQ) ((df.getCol "Lat").map Val.toQ)

/-- Source lines 133–135: the frame with the `X` and `Y` columns
assigned (the row geometry itself lives outside the tabular columns and
is dropped before return, so it is not materialised here). -/
def conXY (env : Env) (df : DFrame) : DFrame :=
  (df.setCol "X" ((xyCols env df).map (fun p => valOfOpt p.1))).setCol "Y"
    ((xyCols env df).map (fun p => valOfOpt p.2))

/-- The per-row planar points (`points_from_xy`), null when either
coordinate is missing. -/
def ptsOf (xy : List (Option ℚ × Option ℚ)) : List (Option Pt) :=
  xy.map (fun p =>
    match p.1, p.2 with
    | some a, some b => some (a, b)
    | _, _ => none)

/-- Source line 168: `PK_geom_m`, the arc length of each point's snap. -/
def pkGeomOf (env : Env) (linea : Line) (xy : List (Option ℚ × Option ℚ)) :
    List (Option ℚ) :=
  (ptsOf xy).map (Option.map (env.lineProject linea))

/-- Source lines 170–175 applied to the frame: the direction-resolved
stations (the correlation sample pairs `PK_equipo` with the raw
stations). -/
def stationsOf (env : Env) (linea : Line) (df5 : DFrame)
    (xy : List (Option ℚ × Option ℚ)) : List (Option ℚ) :=
  directionResolve (env.lineLength linea) ((df5.getCol "PK_equipo").map Val.toQ)
    (pkGeomOf env linea xy)

/-- Source lines 178–181: the snap point of each row transformed back to
geographic coordinates. -/
def backOf (env : Env) (linea : Line) (xy : List (Option ℚ × Option ℚ)) :
    List (Option (ℚ × ℚ)) :=
  (ptsOf xy).map (Option.map (fun p =>
    env.transformBack (env.lineInterpolate linea (env.lineProject linea p)).1
      (env.lineInterpolate linea (env.lineProject linea p)).2))

/-- Source lines 167–189 after the reference line is fixed: write the raw
stations, resolve direction, write corrected coordinates and the rounded
`Station No`, and drop the scratch columns.  `df4` already carries
`X`/`Y`; a missing `PK_equipo` column surfaces in the correlation step as
a `KeyError` caught by the outer handler, which returns the plain frame
`df` — the snap columns were assigned to the separate GeoDataFrame, so
the error value is `df4` itself, without `PK_geom_m`. -/
def snapFin (env : Env) (linea : Line) (df4 : DFrame)
    (xy : List (Option ℚ × Option ℚ)) : DFrame × Option String :=
  if ¬ df4.hasCol "PK_equipo" then
    (df4, some msgInterno)
  else
    (((((df4.setCol "PK_geom_m" ((pkGeomOf env linea xy).map valOfOpt)).setCol
        "PK_geom_m"
        ((stationsOf env linea (df4.setCol "PK_geom_m"
          ((pkGeomOf env linea xy).map valOfOpt)) xy).map valOfOpt)).setCol
        "Longitude"
        ((backOf env linea xy).map (fun o => valOfOpt (o.map Prod.fst)))).setCol
        "Latitude"
        ((backOf env linea xy).map (fun o => valOfOpt (o.map Prod.snd)))).setCol
        "Station No"
        ((stationsOf env linea (df4.setCol "PK_geom_m"
          ((pkGeomOf env linea xy).map valOfOpt)) xy).map
          (fun o => valOfOpt (o.map (roundTo 2)))) |>.dropCols
      ["X", "Y", "geometry", "geom_snap", "PK_equipo", "Lat", "Long"],
      none)

/-- The geospatial alignment: returns the processed frame and `none`, or
the frame as mutated so far and an error message — exactly the
`(df, error)` convention of the source. -/
def procesar_geometria_lrs (env : Env) (df0 : DFrame) : DFrame × Option String :=
  match imputeStep (renombrar df0) "Lat" with
  | .error d => (d, some msgInterno)
  | .ok df2 =>
  match imputeStep df2 "Long" with
  | .error d => (d, some msgInterno)
  | .ok df3 =>
  if (df3.getCol "Lat").all Val.isNull then (df3, some msgSinGPS)
  else
    match env.loadDucto with
    | .error e => (conXY env df3, some (msgCargaGeo ++ ": " ++ e))
    | .ok geoms =>
      if (lineasSimples geoms).isEmpty then (conXY env df3, some msgSinLineas)
      else
        snapFin env (argmaxFirst env.lineLength (env.linemerge (lineasSimples geoms)))
          (conXY env df3) (xyCols env df3)

/-! ### Orchestrator (`procesar_archivo_completo`, source lines 271–386) -/

/-- `(series * 1000).round(2)` on one cell (NaN passes through). -/
def v1000r2 : Val → Val
  | .num q => .num (roundTo 2 (q * 1000))
  | v => v

/-- Manual-mode voltage rescaling (source lines 315–317): unconditional. -/
def escalarManual (xs : List Val) : List Val := xs.map v1000r2

/-- `df[col].abs().mean() < 100`: pandas `mean` skips NaN; an all-NaN
column gives NaN, and `NaN < 100` is false. -/
def meanAbsLt100 (xs : List Val) : Bool :=
  let vs := xs.filterMap Val.toQ
  if vs.isEmpty then false
  else decide (meanQ (vs.map (fun q => |q|)) < 100)

/-- Geospatial-path voltage rescaling (source lines 332–336): scale only
channels whose mean absolute magnitude is below 100. -/
def escalarGeo (xs : List Val) : List Val :=
  if meanAbsLt100 xs then xs.map v1000r2 else xs

/-- Apply a column transformation when the column exists. -/
def onCol (f : List Val → List Val) (c : String) (df : DFrame) : DFrame :=
  if df.hasCol c then df.setCol c (f (df.getCol c)) else df

/-- Geospatial branch of section C: rescale both voltage channels
heuristically. -/
def geoVolts (df : DFrame) : DFrame :=
  onCol escalarGeo "Off Voltage" (onCol escalarGeo "On Voltage" df)

/-- Manual-mode coordinate nudge: `(coord + uniforms/1e6).round(8)` with
the generator freshly seeded at 42 (the draws are shared between the two
coordinate columns, as in the source). -/
def jitterCol (env : Env) (xs : List Val) : List Val :=
  xs.enum.map (fun p =>
    match p.2.toQ with
    | some q => Val.num (roundTo 8 (q + env.uniform (env.seedFn 42) p.1 / 1000000))
    | none => p.2)

/-- Manual-mode voltage scaling (source lines 315–317), both channels. -/
def voltajesManual (df : DFrame) : DFrame :=
  onCol escalarManual "Off Voltage" (onCol escalarManual "On Voltage" df)

/-- Manual-mode station assignment (source lines 320–321):
`linspace(pk_inicial, pk_final, len(df)).round(3)` when the frame is
nonempty. -/
def estacionManual (cfg : Config) (df : DFrame) : DFrame :=
  if 0 < df.nrows then
    df.setCol "Station No"
      ((linspaceQ cfg.pkInicial cfg.pkFinal df.nrows).map (fun q => Val.num (roundTo 3 q)))
  else df

/-- Manual-mode coordinate nudge (source lines 323–329), applied when both
coordinate columns exist. -/
def nudgeCoords (env : Env) (df : DFrame) : DFrame :=
  if df.hasCol "Latitude" ∧ df.hasCol "Longitude" then
    (df.setCol "Latitude" (jitterCol env (df.getCol "Latitude"))).setCol
      "Longitude" (jitterCol env (df.getCol "Longitude"))
  else df

/-- Section C, manual branch (source lines 313–329): unconditional voltage
scaling, linear station assignment, and seeded coordinate jitter.  The
`rng0` argument is numpy's global generator state on entry; the source
executes `np.random.seed(42)` before sampling, so `rng0` is dead — which
is the content of claim C10. -/
def manualProcess (env : Env) (cfg : Config) (rng0 : ℕ) (df0 : DFrame) : DFrame :=
  nudgeCoords env (estacionManual cfg (voltajesManual df0))

/-- First match of a key in the annotation table's key column, returning
the paired label cell (`null` when unmatched): `drop_duplicates(keep=first)`
followed by a left merge on the now-unique key is exactly first-match
lookup. -/
def lookupFirst (keys vals : List Val) (k : Val) : Val :=
  match (keys.zip vals).find? (fun p => p.1 = k) with
  | some p => p.2
  | none => .null

/-- `a.fillna(b)` on one cell. -/
def fillNa (a b : Val) : Val := if a = .null then b else a

/-- The label cell merged onto each survey row: left merge on `Data No`
against the deduplicated annotation table. -/
def matchedCol (survey dcp : DFrame) (cn : String) : List Val :=
  (survey.getCol "Data No").map
    (lookupFirst (dcp.getCol "Data No") (dcp.getCol cn))

/-- The collision-free path of section D: the merge appends the label
column, `Comment` is filled (or created from the labels with NaN → `""`),
and the label column is dropped afterwards unless it *is* `Comment`. -/
def mergeClean (survey dcp : DFrame) (cn : String) : DFrame :=
  if (survey.setCol cn (matchedCol survey dcp cn)).hasCol "Comment" then
    (survey.setCol cn (matchedCol survey dcp cn)).setCol "Comment"
      (List.zipWith fillNa
        ((survey.setCol cn (matchedCol survey dcp cn)).getCol "Comment")
        ((survey.setCol cn (matchedCol survey dcp cn)).getCol cn))
  else
    (survey.setCol cn (matchedCol survey dcp cn)).setCol "Comment"
      ((matchedCol survey dcp cn).map (fun v => fillNa v (.str "")))

/-- Section D (source lines 338–359): merge the `DCP Data` sheet onto the
survey by exact equality on `Data No`.  The `try/except: pass` wrapper is
made explicit: an exception leaves the frame as already reassigned
(pandas suffixes colliding column names with `_x`/`_y`, after which the
`fillna` line raises `KeyError` and the merged frame survives; a label
column itself named `Data No` makes the merge call raise before any
reassignment). -/
def mergeDCP (survey dcp : DFrame) : DFrame :=
  if dcp.nrows = 0 ∨ ¬ survey.hasCol "Data No" then survey
  else
    match dcp.cols.get? 6 with
    | none => survey
    | some c =>
      if c.1 = "" then survey
      else if ¬ dcp.hasCol "Data No" then survey
      else if c.1 = "Data No" then survey
      else if survey.hasCol c.1 then
        (survey.renameCol c.1 (c.1 ++ "_x")).setCol (c.1 ++ "_y")
          (matchedCol survey dcp c.1)
      else if c.1 = "Comment" then mergeClean survey dcp c.1
      else (mergeClean survey dcp c.1).dropCols [c.1]

/-- `astype(str)` on one cell: strings pass through, NaN becomes the
string `nan`, numbers go through Python float formatting (external). -/
def pyCell (env : Env) : Val → String
  | .str s => s
  | .null => "nan"
  | .num q => env.pyStrNum q

/-- Whether `pat` is an initial segment of `s`. -/
def startsWithList : List Char → List Char → Bool
  | [], _ => true
  | _ :: _, [] => false
  | p :: ps, c :: cs => p = c && startsWithList ps cs

/-- Python's `str.replace` on character lists: scan left to right,
replacing non-overlapping occurrences of `pat` by `rep`.  The fuel is an
upper bound on the number of scan steps (each step consumes at least one
character for the nonempty patterns used here). -/
def replaceList (pat rep : List Char) : ℕ → List Char → List Char
  | 0, s => s
  | _ + 1, [] => []
  | fuel + 1, ch :: rest =>
    if startsWithList pat (ch :: rest) then
      rep ++ replaceList pat rep fuel ((ch :: rest).drop pat.length)
    else ch :: replaceList pat rep fuel rest

/-- `s.replace(pat, rep)` (Python string replacement, `regex=False`). -/
def pyReplace (s pat rep : String) : String :=
  String.mk (replaceList pat.data rep.data s.data.length s.data)

/-- Section E's four sequential substring replacements (Python dicts
iterate in insertion order). -/
def fixWords (s : String) : String :=
  pyReplace (pyReplace (pyReplace (pyReplace s "valvula" "Válvula")
    "anodo" "Ánodo") "potencial" "Potencial") "estacion" "Estación"

/-- Section E (source lines 361–365): spelling fixes on the comment
column, which `astype(str)` converts wholesale to strings. -/
def spellFix (env : Env) (df : DFrame) : DFrame :=
  onCol (fun xs => xs.map (fun v => Val.str (fixWords (pyCell env v)))) "Comment" df

/-- Section F on one column's cells. -/
def cleanValCol (cfg : Config) (xs : List Val) : List Val :=
  (cleanChannel cfg.ventanaDet cfg.umbral cfg.aplicarSmooth
    cfg.ventanaSmooth (xs.map Val.toQ)).map valOfOpt

/-- Section F (source lines 367–384): spike rejection and optional
smoothing on each voltage channel present, `On Voltage` first. -/
def signalClean (cfg : Config) (df : DFrame) : DFrame :=
  onCol (cleanValCol cfg) "Off Voltage" (onCol (cleanValCol cfg) "On Voltage" df)

/-- Sections D, E, F in order — shared by every branch of section B/C. -/
def postProceso (env : Env) (cfg : Config) (df dcp : DFrame) : DFrame :=
  signalClean cfg (spellFix env (mergeDCP df dcp))

/-- The full pipeline after the Excel read: section B chooses geospatial
alignment or the manual fallback (also on geospatial *failure*), section C
rescales, then sections D–F run on either branch.  `rng0` is numpy's
global generator state at entry; `geoDisponible` is
`ruta_geo and os.path.exists(ruta_geo)`. -/
def procesar_archivo_completo (env : Env) (cfg : Config) (rng0 : ℕ)
    (dfSurvey dcp : DFrame) (geoDisponible : Bool) : DFrame :=
  if geoDisponible then
    match procesar_geometria_lrs env dfSurvey with
    | (d, some _) => postProceso env cfg (manualProcess env cfg rng0 d) dcp
    | (d, none) => postProceso env cfg (geoVolts d) dcp
  else postProceso env cfg (manualProcess env cfg rng0 dfSurvey) dcp

/-! ### Auxiliary definitions used by the statements below -/

/-- The column names the geospatial stage may introduce. -/
def geoNames : List String :=
  ["PK_equipo", "Lat", "Long", "X", "Y", "PK_geom_m", "Longitude", "Latitude",
    "Station No"]

/-- A cell admissible in a numeric column of a valid input table
(pandas float columns hold numbers and NaN only). -/
def numLike : Val → Bool
  | .str _ => false
  | _ => true

/-- The engine's input contract on the survey table: the recognised
numeric columns, where present, contain only numbers and NaN. -/
def validInput (df : DFrame) : Bool :=
  ["Dist From Start", "Latitude", "Longitude", "On Voltage", "Off Voltage"].all
    (fun c => (df.getCol c).all numLike)

/-- A concrete instantiation of the external collaborators, used to
evaluate the pipeline on closed inputs: the projection is the identity,
the reference geometry is a single 1000-unit segment, snapping projects
onto the first coordinate, and the generator always draws 0. -/
def envTrivial : Env where
  transform := fun a b => (a, b)
  transformBack := fun a b => (a, b)
  loadDucto := .ok [Geom.line [((0 : ℚ), (0 : ℚ)), ((1000 : ℚ), (0 : ℚ))]]
  linemerge := fun ls => ls
  lineLength := fun _ => 1000
  lineProject := fun _ p => p.1
  lineInterpolate := fun _ d => (d, 0)
  seedFn := fun s => s
  uniform := fun _ _ => 0
  pyStrNum := fun _ => "0.0"

/-- The sidebar defaults: threshold 15 mV, detection window 9, smoothing
on with window 12, manual stations from 0 to 1000. -/
def cfgStd : Config := ⟨15, 9, true, 12, 0, 1000⟩

/-- An empty auxiliary table (`hojas_extra` without a `DCP Data` sheet). -/
def emptyD : DFrame := ⟨0, []⟩

/-- Survey input whose coordinate columns are entirely missing (claim
C2's failure scenario). -/
def dfC2 : DFrame :=
  ⟨2, [("Dist From Start", [Val.num 0, Val.num 100]),
    ("Latitude", [Val.null, Val.null]),
    ("Longitude", [Val.null, Val.null]),
    ("On Voltage", [Val.num 1, Val.num 1])]⟩

/-- A small survey input on which geospatial alignment succeeds. -/
def dfC3 : DFrame :=
  ⟨2, [("Dist From Start", [Val.num 0, Val.num 100]),
    ("Latitude", [Val.num 1, Val.num 2]),
    ("Longitude", [Val.num 3, Val.num 4])]⟩

/-- A survey whose voltage channel averages |·| = 500 ≥ 100 (claim C4's
premise that the heuristic would leave it unscaled). -/
def dfC4 : DFrame := ⟨2, [("On Voltage", [Val.num 500, Val.num 500])]⟩

/-- Scenario-D-style survey row: snaps to station 500, original comment
`orig` (claim C1). -/
def dfC1 : DFrame :=
  ⟨1, [("Data No", [Val.num 1]),
    ("Dist From Start", [Val.num 500]),
    ("Latitude", [Val.num 1]),
    ("Longitude", [Val.num 500]),
    ("Comment", [Val.str "orig"])]⟩

/-- Scenario-D-style auxiliary table: one record at distance 499.6
labelled `Anomaly X`, whose `Data No` key (7) matches no survey row. -/
def dcpC1 : DFrame :=
  ⟨1, [("Data No", [Val.num 7]),
    ("Distance", [Val.num (2498 / 5)]),
    ("c2", [Val.null]), ("c3", [Val.null]), ("c4", [Val.null]),
    ("c5", [Val.null]),
    ("Observacion", [Val.str "Anomaly X"])]⟩

/-- Two survey rows, the second with a missing comment (witness input for
the amended C1). -/
def surveyW : DFrame :=
  ⟨2, [("Data No", [Val.num 1, Val.num 2]),
    ("Comment", [Val.str "orig", Val.null])]⟩

/-- Auxiliary table whose 7th column holds the label, keyed to the second
survey row. -/
def dcpW7 : DFrame :=
  ⟨1, [("Data No", [Val.num 2]),
    ("d1", [Val.null]), ("d2", [Val.null]), ("d3", [Val.null]),
    ("d4", [Val.null]), ("d5", [Val.null]),
    ("Observacion", [Val.str "Anomaly X"])]⟩

deriving instance DecidableEq for Except

/-- A frame (post-rename) with three valid latitude rows but a missing
sensor distance on a fourth row: the imputation trigger fires and the
regression raises (claim C6's counterexample). -/
def dfC6 : DFrame :=
  ⟨5, [("PK_equipo", [Val.num 0, Val.num 100, Val.num 200, Val.null, Val.num 400]),
    ("Lat", [Val.num 1, Val.num 2, Val.num 3, Val.num 9, Val.null])]⟩

/-- A small valid survey table for the C8 witness. -/
def dfC8w : DFrame :=
  ⟨2, [("On Voltage", [Val.num 1, Val.null]),
    ("Data No", [Val.num 3, Val.num 4])]⟩

/-! ## Lemma library: the DataFrame operations -/

theorem mem_setColAux {c' : String × List Val} {n : String} {xs : List Val} :
    ∀ {cs : List (String × List Val)}, c' ∈ setColAux n xs cs → c' = (n, xs) ∨ c' ∈ cs := by
  intro cs
  induction cs with
  | nil => simp [setColAux]
  | cons c cs ih =>
    simp only [setColAux]
    split
    · intro h
      rcases List.mem_cons.1 h with h | h
      · exact Or.inl h
      · exact Or.inr (List.mem_cons_of_mem _ h)
    · intro h
      rcases List.mem_cons.1 h with h | h
      · exact Or.inr (h ▸ List.mem_cons_self _ _)
      · rcases ih h with h | h
        · exact Or.inl h
        · exact Or.inr (List.mem_cons_of_mem _ h)

theorem WF_setCol {df : DFrame} {n : String} {xs : List Val}
    (h : df.WF) (hx : xs.length = df.nrows) : (df.setCol n xs).WF := by
  intro c hc
  rcases mem_setColAux hc with rfl | hc
  · exact hx
  · exact h c hc

theorem WF_dropCols {df : DFrame} {names : List String} (h : df.WF) :
    (df.dropCols names).WF := by
  intro c hc
  exact h c (List.mem_of_mem_filter hc)

theorem WF_renameCol {df : DFrame} {old new : String} (h : df.WF) :
    (df.renameCol old new).WF := by
  intro c hc
  rcases List.mem_map.1 hc with ⟨c₀, hc₀, hmap⟩
  have : c.2 = c₀.2 := by
    subst hmap
    split <;> rfl
  rw [this]
  exact h c₀ hc₀

theorem find?_setColAux_self (n : String) (xs : List Val) :
    ∀ cs : List (String × List Val),
      (setColAux n xs cs).find? (fun c => c.1 = n) = some (n, xs) := by
  intro cs
  induction cs with
  | nil => simp [setColAux, List.find?]
  | cons c cs ih =>
    simp only [setColAux]
    split
    · simp [List.find?]
    · rename_i hc
      simpa [List.find?, hc] using ih

theorem find?_setColAux_ne {n m : String} (xs : List Val) (h : m ≠ n) :
    ∀ cs : List (String × List Val),
      (setColAux n xs cs).find? (fun c => c.1 = m) = cs.find? (fun c => c.1 = m) := by
  intro cs
  induction cs with
  | nil => simp [setColAux, List.find?, Ne.symm h]
  | cons c cs ih =>
    simp only [setColAux]
    split
    · rename_i hc
      simp [List.find?, hc, Ne.symm h]
    · by_cases hm : c.1 = m
      · simp [List.find?, hm]
      · simpa [List.find?, hm] using ih

theorem hasCol_setCol (df : DFrame) (n m : String) (xs : List Val) :
    (df.setCol n xs).hasCol m = (df.hasCol m || decide (m = n)) := by
  show (setColAux n xs df.cols).any _ = _
  unfold DFrame.hasCol
  induction df.cols with
  | nil =>
    simp only [setColAux, List.any_cons, List.any_nil]
    by_cases h : m = n
    · simp [h]
    · simp [h, Ne.symm h]
  | cons c cs ih =>
    simp only [setColAux]
    split
    · rename_i hc
      by_cases h : m = n
      · simp [h, hc]
      · simp [h, hc, Ne.symm h]
    · simp only [List.any_cons, ih, Bool.or_assoc]

theorem getCol_setCol_self (df : DFrame) (n : String) (xs : List Val) :
    (df.setCol n xs).getCol n = xs := by
  show DFrame.getCol ⟨df.nrows, setColAux n xs df.cols⟩ n = xs
  unfold DFrame.getCol
  rw [find?_setColAux_self]

theorem getCol_setCol_ne (df : DFrame) {n m : String} (xs : List Val) (h : m ≠ n) :
    (df.setCol n xs).getCol m = df.getCol m := by
  show DFrame.getCol ⟨df.nrows, setColAux n xs df.cols⟩ m = df.getCol m
  unfold DFrame.getCol
  rw [find?_setColAux_ne xs h]

theorem find?_filterNames {names : List String} {m : String}
    (h : names.contains m = false) :
    ∀ cs : List (String × List Val),
      (cs.filter (fun c => !(names.contains c.1))).find? (fun c => c.1 = m)
        = cs.find? (fun c => c.1 = m) := by
  intro cs
  induction cs with
  | nil => simp
  | cons c cs ih =>
    rcases hk : names.contains c.1 with _ | _
    · rw [List.filter_cons_of_pos (by simpa using hk)]
      by_cases hcm : c.1 = m
      · simp [List.find?, hcm]
      · simpa [List.find?, hcm] using ih
    · have hcm : c.1 ≠ m := by
        intro he
        rw [he, h] at hk
        exact Bool.false_ne_true hk
      rw [List.filter_cons_of_neg (by simpa using hk)]
      simpa [List.find?, hcm] using ih

theorem getCol_dropCols (df : DFrame) {names : List String} {m : String}
    (h : names.contains m = false) : (df.dropCols names).getCol m = df.getCol m := by
  show DFrame.getCol ⟨df.nrows, df.cols.filter _⟩ m = df.getCol m
  unfold DFrame.getCol
  rw [find?_filterNames h]

theorem hasCol_dropCols_false (df : DFrame) {names : List String} {m : String}
    (h : df.hasCol m = false) : (df.dropCols names).hasCol m = false := by
  unfold DFrame.hasCol at h ⊢
  rw [List.any_eq_false] at h ⊢
  intro c hc
  exact h c (List.mem_of_mem_filter hc)

theorem hasCol_renameCol_false (df : DFrame) {old new m : String}
    (h : df.hasCol m = false) (hnew : m ≠ new) :
    (df.renameCol old new).hasCol m = false := by
  unfold DFrame.hasCol at h ⊢
  rw [List.any_eq_false] at h ⊢
  intro c hc
  rcases List.mem_map.1 hc with ⟨c₀, hc₀, hmap⟩
  subst hmap
  have := h c₀ hc₀
  split
  · simpa using Ne.symm hnew
  · simpa using this

theorem getCol_length_of_WF {df : DFrame} {n : String} (h : df.WF)
    (hc : df.hasCol n = true) : (df.getCol n).length = df.nrows := by
  unfold DFrame.getCol
  rcases hfind : df.cols.find? (fun c => c.1 = n) with _ | c
  · exfalso
    unfold DFrame.hasCol at hc
    rcases List.any_eq_true.1 hc with ⟨c, hmem, hp⟩
    have := List.find?_eq_none.1 hfind c hmem
    exact this hp
  · simp only [hfind]
    exact h c (List.mem_of_find?_eq_some hfind)

/-! ## Lemma library: lengths of the column transformations -/

theorem length_rollingMedianO (w : ℕ) (xs : List (Option ℚ)) :
    (rollingMedianO w xs).length = xs.length := by
  simp [rollingMedianO]

theorem length_rollingMeanO (w : ℕ) (xs : List (Option ℚ)) :
    (rollingMeanO w xs).length = xs.length := by
  simp [rollingMeanO]

theorem length_spikeClean (w : ℕ) (t : ℚ) (xs : List (Option ℚ)) :
    (spikeClean w t xs).length = xs.length := by
  simp [spikeClean, length_rollingMedianO]

theorem length_smoothSeries (ws : ℕ) (xs : List (Option ℚ)) :
    (smoothSeries ws xs).length = xs.length := by
  simp [smoothSeries, length_rollingMeanO]

theorem length_cleanChannel (w : ℕ) (t : ℚ) (sm : Bool) (ws : ℕ) (xs : List (Option ℚ)) :
    (cleanChannel w t sm ws xs).length = xs.length := by
  unfold cleanChannel
  split
  · rw [length_smoothSeries, length_spikeClean]
  · exact length_spikeClean w t xs

theorem length_linspaceQ (a b : ℚ) (n : ℕ) : (linspaceQ a b n).length = n := by
  unfold linspaceQ
  split <;> simp only [List.length_map, List.length_range]

theorem length_jitterCol (env : Env) (xs : List Val) :
    (jitterCol env xs).length = xs.length := by
  simp [jitterCol]

theorem length_fillOLS (xs ys : List (Option ℚ)) :
    (fillOLS xs ys).length = min xs.length ys.length := by
  simp [fillOLS]

theorem length_escalarManual (xs : List Val) : (escalarManual xs).length = xs.length := by
  simp [escalarManual]

theorem length_escalarGeo (xs : List Val) : (escalarGeo xs).length = xs.length := by
  unfold escalarGeo
  split <;> simp

theorem length_directionResolve (len : ℚ) (pkE pkG : List (Option ℚ)) :
    (directionResolve len pkE pkG).length = pkG.length := by
  unfold directionResolve
  split <;> simp

theorem imputeSeries_length {xs ys zs : List (Option ℚ)}
    (h : imputeSeries xs ys = some zs) (hl : xs.length = ys.length) :
    zs.length = ys.length := by
  unfold imputeSeries at h
  split at h
  · split at h
    · exact absurd h (by simp)
    · injection h with h
      rw [← h, length_fillOLS, hl, Nat.min_self]
  · injection h with h
    rw [← h]

/-! ## Lemma library: stage-level preservation of well-formedness -/

theorem hasCol_setCol_of_has {df : DFrame} {n : String} {xs : List Val}
    (hc : df.hasCol n = true) (m : String) :
    (df.setCol n xs).hasCol m = df.hasCol m := by
  rw [hasCol_setCol]
  by_cases h : m = n
  · subst h
    simp [hc]
  · simp [h]

theorem onCol_pres {f : List Val → List Val} (hf : ∀ xs, (f xs).length = xs.length)
    (c : String) {df : DFrame} (h : df.WF) :
    (onCol f c df).WF ∧ (onCol f c df).nrows = df.nrows := by
  unfold onCol
  split
  · rename_i hc
    exact ⟨WF_setCol h (by rw [hf]; exact getCol_length_of_WF h hc), rfl⟩
  · exact ⟨h, rfl⟩

theorem imputeStep_error {df d : DFrame} {coord : String}
    (h : imputeStep df coord = .error d) : d = df := by
  unfold imputeStep at h
  split at h
  · injection h with h
    exact h.symm
  · split at h
    · split at h
      · injection h with h
        exact h.symm
      · split at h
        · injection h with h
          exact h.symm
        · split at h
          · injection h with h
            exact h.symm
          · exact Except.noConfusion h
    · exact Except.noConfusion h

theorem imputeStep_ok {df d : DFrame} {coord : String} (hW : df.WF)
    (h : imputeStep df coord = .ok d) :
    d.WF ∧ d.nrows = df.nrows ∧ df.hasCol coord = true ∧
      ∀ m, d.hasCol m = df.hasCol m := by
  unfold imputeStep at h
  split at h
  · exact Except.noConfusion h
  · rename_i hcoord
    rw [not_not] at hcoord
    split at h
    · split at h
      · exact Except.noConfusion h
      · rename_i hpk
        rw [not_not] at hpk
        split at h
        · exact Except.noConfusion h
        · split at h
          · exact Except.noConfusion h
          · rename_i zs hzs
            injection h with h
            subst h
            have hxl : ((df.getCol "PK_equipo").map Val.toQ).length = df.nrows := by
              rw [List.length_map]
              exact getCol_length_of_WF hW hpk
            have hyl : ((df.getCol coord).map Val.toQ).length = df.nrows := by
              rw [List.length_map]
              exact getCol_length_of_WF hW hcoord
            have hin : zs.length = df.nrows := by
              rw [imputeSeries_length hzs (by rw [hxl, hyl]), hyl]
            refine ⟨WF_setCol hW (by rw [List.length_map]; exact hin), rfl, hcoord, ?_⟩
            exact hasCol_setCol_of_has hcoord
    · injection h with h
      subst h
      exact ⟨hW, rfl, hcoord, fun m => rfl⟩

theorem hasCol_setCol_self (df : DFrame) (n : String) (xs : List Val) :
    (df.setCol n xs).hasCol n = true := by
  rw [hasCol_setCol]
  simp

theorem hasCol_renombrar_false {df0 : DFrame} {m : String}
    (h : df0.hasCol m = false) (h1 : m ≠ "PK_equipo") (h2 : m ≠ "Lat")
    (h3 : m ≠ "Long") : (renombrar df0).hasCol m = false :=
  hasCol_renameCol_false _ (hasCol_renameCol_false _ (hasCol_renameCol_false _ h h1) h2) h3

theorem length_xyCols (env : Env) {df : DFrame} (h : df.WF)
    (hLat : df.hasCol "Lat" = true) (hLong : df.hasCol "Long" = true) :
    (xyCols env df).length = df.nrows := by
  unfold xyCols
  rw [List.length_zipWith, List.length_map, List.length_map,
    getCol_length_of_WF h hLong, getCol_length_of_WF h hLat, Nat.min_self]

theorem conXY_pres (env : Env) {df : DFrame} (h : df.WF)
    (hLat : df.hasCol "Lat" = true) (hLong : df.hasCol "Long" = true) :
    (conXY env df).WF ∧ (conXY env df).nrows = df.nrows := by
  have hl := length_xyCols env h hLat hLong
  refine ⟨WF_setCol (WF_setCol h ?_) ?_, rfl⟩ <;>
    simp [hl, DFrame.setCol]

theorem hasCol_conXY_false (env : Env) {df : DFrame} {m : String}
    (h : df.hasCol m = false) (h1 : m ≠ "X") (h2 : m ≠ "Y") :
    (conXY env df).hasCol m = false := by
  unfold conXY
  rw [hasCol_setCol, hasCol_setCol]
  simp [h, h1, h2]

theorem length_ptsOf (xy : List (Option ℚ × Option ℚ)) :
    (ptsOf xy).length = xy.length := by
  simp [ptsOf]

theorem length_pkGeomOf (env : Env) (linea : Line) (xy : List (Option ℚ × Option ℚ)) :
    (pkGeomOf env linea xy).length = xy.length := by
  simp [pkGeomOf, length_ptsOf]

theorem length_backOf (env : Env) (linea : Line) (xy : List (Option ℚ × Option ℚ)) :
    (backOf env linea xy).length = xy.length := by
  simp [backOf, length_ptsOf]

theorem length_stationsOf (env : Env) (linea : Line) (df5 : DFrame)
    (xy : List (Option ℚ × Option ℚ)) :
    (stationsOf env linea df5 xy).length = xy.length := by
  unfold stationsOf
  rw [length_directionResolve, length_pkGeomOf]

theorem snapFin_pres (env : Env) (linea : Line) {df4 : DFrame}
    {xy : List (Option ℚ × Option ℚ)} (hW : df4.WF) (hxy : xy.length = df4.nrows) :
    ((snapFin env linea df4 xy).1).WF ∧
      ((snapFin env linea df4 xy).1).nrows = df4.nrows ∧
      ∀ m, df4.hasCol m = false → m ≠ "PK_geom_m" → m ≠ "Longitude" →
        m ≠ "Latitude" → m ≠ "Station No" →
        ((snapFin env linea df4 xy).1).hasCol m = false := by
  have hpk : ((pkGeomOf env linea xy).map valOfOpt).length = df4.nrows := by
    rw [List.length_map, length_pkGeomOf, hxy]
  have hW5 : (df4.setCol "PK_geom_m" ((pkGeomOf env linea xy).map valOfOpt)).WF :=
    WF_setCol hW hpk
  unfold snapFin
  split
  · exact ⟨hW, rfl, fun m hm _ _ _ _ => hm⟩
  · have hst : ∀ g : Option ℚ → Val,
        ((stationsOf env linea (df4.setCol "PK_geom_m"
          ((pkGeomOf env linea xy).map valOfOpt)) xy).map g).length = df4.nrows := by
      intro g
      rw [List.length_map, length_stationsOf, hxy]
    have hbk : ∀ g : Option (ℚ × ℚ) → Val,
        ((backOf env linea xy).map g).length = df4.nrows := by
      intro g
      rw [List.length_map, length_backOf, hxy]
    refine ⟨WF_dropCols (WF_setCol (WF_setCol (WF_setCol (WF_setCol hW5 (hst _))
      (hbk _)) (hbk _)) (hst _)), rfl, ?_⟩
    intro m hm h1 h2 h3 h4
    apply hasCol_dropCols_false
    rw [hasCol_setCol, hasCol_setCol, hasCol_setCol, hasCol_setCol, hasCol_setCol]
    simp [hm, h1, h2, h3, h4]

theorem geo_pres (env : Env) {df0 : DFrame} (h : df0.WF) :
    ((procesar_geometria_lrs env df0).1).WF ∧
      ((procesar_geometria_lrs env df0).1).nrows = df0.nrows ∧
      ∀ m, df0.hasCol m = false → m ∉ geoNames →
        ((procesar_geometria_lrs env df0).1).hasCol m = false := by
  have hW1 : (renombrar df0).WF := WF_renameCol (WF_renameCol (WF_renameCol h))
  have hpres1 : ∀ m, df0.hasCol m = false → m ∉ geoNames →
      (renombrar df0).hasCol m = false := by
    intro m hm hn
    simp only [geoNames, List.mem_cons, List.not_mem_nil, or_false, not_or] at hn
    exact hasCol_renombrar_false hm hn.1 hn.2.1 hn.2.2.1
  unfold procesar_geometria_lrs
  rcases h1 : imputeStep (renombrar df0) "Lat" with d | df2
  · simp only [h1]
    obtain rfl := imputeStep_error h1
    exact ⟨hW1, rfl, hpres1⟩
  · simp only [h1]
    obtain ⟨hW2, hn2, hLat1, hcols2⟩ := imputeStep_ok hW1 h1
    have hpres2 : ∀ m, df0.hasCol m = false → m ∉ geoNames →
        df2.hasCol m = false := by
      intro m hm hn
      rw [hcols2]
      exact hpres1 m hm hn
    rcases h2 : imputeStep df2 "Long" with d | df3
    · simp only [h2]
      obtain rfl := imputeStep_error h2
      exact ⟨hW2, hn2, hpres2⟩
    · simp only [h2]
      obtain ⟨hW3, hn3, hLong2, hcols3⟩ := imputeStep_ok hW2 h2
      have hn3' : df3.nrows = df0.nrows := hn3.trans hn2
      have hpres3 : ∀ m, df0.hasCol m = false → m ∉ geoNames →
          df3.hasCol m = false := by
        intro m hm hn
        rw [hcols3]
        exact hpres2 m hm hn
      have hLat3 : df3.hasCol "Lat" = true := by
        rw [hcols3, hcols2]
        exact hLat1
      have hLong3 : df3.hasCol "Long" = true := by
        rw [hcols3]
        exact hLong2
      have hXY := conXY_pres env hW3 hLat3 hLong3
      have hpres4 : ∀ m, df0.hasCol m = false → m ∉ geoNames →
          (conXY env df3).hasCol m = false := by
        intro m hm hn
        have hn' := hn
        simp only [geoNames, List.mem_cons, List.not_mem_nil, or_false, not_or] at hn'
        exact hasCol_conXY_false env (hpres3 m hm hn) hn'.2.2.2.1 hn'.2.2.2.2.1
      split
      · exact ⟨hW3, hn3', hpres3⟩
      · rcases h3 : env.loadDucto with e | geoms
        · simp only [h3]
          exact ⟨hXY.1, hXY.2.trans hn3', hpres4⟩
        · simp only [h3]
          split
          · exact ⟨hXY.1, hXY.2.trans hn3', hpres4⟩
          · have hxy : (xyCols env df3).length = (conXY env df3).nrows := by
              rw [hXY.2]
              exact length_xyCols env hW3 hLat3 hLong3
            obtain ⟨hWf, hnf, hpf⟩ := snapFin_pres env
              (argmaxFirst env.lineLength (env.linemerge (lineasSimples geoms)))
              hXY.1 hxy
            refine ⟨hWf, hnf.trans (hXY.2.trans hn3'), ?_⟩
            intro m hm hn
            have hn' := hn
            simp only [geoNames, List.mem_cons, List.not_mem_nil, or_false, not_or] at hn'
            exact hpf m (hpres4 m hm hn) hn'.2.2.2.2.2.1 hn'.2.2.2.2.2.2.1
              hn'.2.2.2.2.2.2.2.1 hn'.2.2.2.2.2.2.2.2

theorem voltajesManual_pres {df : DFrame} (h : df.WF) :
    (voltajesManual df).WF ∧ (voltajesManual df).nrows = df.nrows := by
  unfold voltajesManual
  obtain ⟨h1, h2⟩ := onCol_pres length_escalarManual "On Voltage" h
  obtain ⟨h3, h4⟩ := onCol_pres length_escalarManual "Off Voltage" h1
  exact ⟨h3, h4.trans h2⟩

theorem estacionManual_pres (cfg : Config) {df : DFrame} (h : df.WF) :
    (estacionManual cfg df).WF ∧ (estacionManual cfg df).nrows = df.nrows := by
  unfold estacionManual
  split
  · refine ⟨WF_setCol h ?_, rfl⟩
    rw [List.length_map, length_linspaceQ]
  · exact ⟨h, rfl⟩

theorem nudgeCoords_pres (env : Env) {df : DFrame} (h : df.WF) :
    (nudgeCoords env df).WF ∧ (nudgeCoords env df).nrows = df.nrows := by
  unfold nudgeCoords
  split
  · rename_i hc
    have hlat : (jitterCol env (df.getCol "Latitude")).length = df.nrows := by
      rw [length_jitterCol]
      exact getCol_length_of_WF h hc.1
    have hW1 : (df.setCol "Latitude" (jitterCol env (df.getCol "Latitude"))).WF :=
      WF_setCol h hlat
    refine ⟨WF_setCol hW1 ?_, rfl⟩
    rw [length_jitterCol]
    exact getCol_length_of_WF h hc.2
  · exact ⟨h, rfl⟩

theorem manualProcess_pres (env : Env) (cfg : Config) (r : ℕ) {df : DFrame}
    (h : df.WF) :
    (manualProcess env cfg r df).WF ∧ (manualProcess env cfg r df).nrows = df.nrows := by
  unfold manualProcess
  obtain ⟨h1, h2⟩ := voltajesManual_pres h
  obtain ⟨h3, h4⟩ := estacionManual_pres cfg h1
  obtain ⟨h5, h6⟩ := nudgeCoords_pres env h3
  exact ⟨h5, h6.trans (h4.trans h2)⟩

theorem geoVolts_pres {df : DFrame} (h : df.WF) :
    (geoVolts df).WF ∧ (geoVolts df).nrows = df.nrows := by
  unfold geoVolts
  obtain ⟨h1, h2⟩ := onCol_pres length_escalarGeo "On Voltage" h
  obtain ⟨h3, h4⟩ := onCol_pres length_escalarGeo "Off Voltage" h1
  exact ⟨h3, h4.trans h2⟩

theorem length_matchedCol {survey : DFrame} (dcp : DFrame) (cn : String)
    (h : survey.WF) (hk : survey.hasCol "Data No" = true) :
    (matchedCol survey dcp cn).length = survey.nrows := by
  unfold matchedCol
  rw [List.length_map]
  exact getCol_length_of_WF h hk

theorem mergeClean_pres {survey : DFrame} (dcp : DFrame) (cn : String)
    (h : survey.WF) (hk : survey.hasCol "Data No" = true) :
    (mergeClean survey dcp cn).WF ∧ (mergeClean survey dcp cn).nrows = survey.nrows := by
  have hm := length_matchedCol dcp cn h hk
  have hW1 : (survey.setCol cn (matchedCol survey dcp cn)).WF := WF_setCol h hm
  unfold mergeClean
  split
  · rename_i hcm
    refine ⟨WF_setCol hW1 ?_, rfl⟩
    rw [List.length_zipWith, getCol_length_of_WF hW1 hcm,
      getCol_length_of_WF hW1 (hasCol_setCol_self _ _ _)]
    exact Nat.min_self _
  · refine ⟨WF_setCol hW1 ?_, rfl⟩
    rw [List.length_map]
    exact hm

theorem mergeDCP_pres {survey : DFrame} (dcp : DFrame) (h : survey.WF) :
    (mergeDCP survey dcp).WF ∧ (mergeDCP survey dcp).nrows = survey.nrows := by
  unfold mergeDCP
  split
  · exact ⟨h, rfl⟩
  · rename_i hcond
    rw [not_or, not_not] at hcond
    rcases hc6 : dcp.cols.get? 6 with _ | c
    · simp only [hc6]
      exact ⟨h, by simp⟩
    · simp only [hc6]
      split
      · exact ⟨h, rfl⟩
      · split
        · exact ⟨h, rfl⟩
        · split
          · exact ⟨h, rfl⟩
          · split
            · refine ⟨WF_setCol (WF_renameCol h) ?_, rfl⟩
              rw [length_matchedCol dcp c.1 h hcond.2]
              rfl
            · split
              · exact mergeClean_pres dcp _ h hcond.2
              · obtain ⟨h1, h2⟩ := mergeClean_pres dcp c.1 h hcond.2
                exact ⟨WF_dropCols h1, h2⟩

theorem spellFix_pres (env : Env) {df : DFrame} (h : df.WF) :
    (spellFix env df).WF ∧ (spellFix env df).nrows = df.nrows := by
  unfold spellFix
  exact onCol_pres (fun xs => by rw [List.length_map]) "Comment" h

theorem length_cleanValCol (cfg : Config) (xs : List Val) :
    (cleanValCol cfg xs).length = xs.length := by
  unfold cleanValCol
  rw [List.length_map, length_cleanChannel, List.length_map]

theorem signalClean_pres (cfg : Config) {df : DFrame} (h : df.WF) :
    (signalClean cfg df).WF ∧ (signalClean cfg df).nrows = df.nrows := by
  unfold signalClean
  obtain ⟨h1, h2⟩ := onCol_pres (length_cleanValCol cfg) "On Voltage" h
  obtain ⟨h3, h4⟩ := onCol_pres (length_cleanValCol cfg) "Off Voltage" h1
  exact ⟨h3, h4.trans h2⟩

theorem postProceso_pres (env : Env) (cfg : Config) {df : DFrame} (dcp : DFrame)
    (h : df.WF) :
    (postProceso env cfg df dcp).WF ∧ (postProceso env cfg df dcp).nrows = df.nrows := by
  unfold postProceso
  obtain ⟨h1, h2⟩ := mergeDCP_pres dcp h
  obtain ⟨h3, h4⟩ := spellFix_pres env h1
  obtain ⟨h5, h6⟩ := signalClean_pres cfg h3
  exact ⟨h5, h6.trans (h4.trans h2)⟩

/-! ## Claim C5 — the Direction Resolver's global one-shot decision -/

/-- C5: the Direction Resolver is a global one-shot decision: if at least
6 rows have both sensor distance and raw station present and the Pearson
correlation between the two series over those rows is negative, every
station value (missing ones staying missing) is replaced by
`length − station`; if fewer than 6 paired values exist, no station is
modified. -/
theorem C5_direction_resolver_global (len : ℚ) (pkE pkG : List (Option ℚ)) :
    (6 ≤ (pairedRows pkE pkG).length ∧
        corrNeg ((pairedRows pkE pkG).map Prod.fst)
          ((pairedRows pkE pkG).map Prod.snd) →
        directionResolve len pkE pkG = pkG.map (Option.map (fun y => len - y))) ∧
    ((pairedRows pkE pkG).length < 6 → directionResolve len pkE pkG = pkG) := by
  constructor
  · rintro ⟨h6, hc⟩
    unfold directionResolve
    rw [if_pos ⟨by omega, hc⟩]
  · intro h
    unfold directionResolve
    rw [if_neg]
    rintro ⟨h5, -⟩
    omega

set_option allowUnsafeReducibility true

section

attribute [local semireducible] Rat.sub Rat.add Rat.mul Rat.inv Rat.blt Rat.neg
  Rat.floor Rat.div

/-- Witness for C5 at the Scenario-C instance: centerline length 1000,
six perfectly anti-correlated pairs, all stations flipped. -/
theorem C5_witness :
    directionResolve 1000 ([0, 100, 200, 300, 400, 500].map some)
        ([900, 800, 700, 600, 500, 400].map some)
      = [100, 200, 300, 400, 500, 600].map some := by
  rw [(C5_direction_resolver_global 1000 ([0, 100, 200, 300, 400, 500].map some)
    ([900, 800, 700, 600, 500, 400].map some)).1 ⟨by decide, by decide⟩]
  decide

end

/-! ## Claim C10 — Manual Mode determinism via reseeding -/

/-- C10: the Manual-Mode coordinate nudge reseeds the generator with the
fixed seed 42 immediately before sampling, so the pipeline's output does
not depend on the generator state at entry: two runs from arbitrary
states produce identical output tables (identical jittered coordinates
included). -/
theorem C10_manual_mode_deterministic (env : Env) (cfg : Config) (r1 r2 : ℕ)
    (dfS dcp : DFrame) (g : Bool) :
    manualProcess env cfg r1 dfS = manualProcess env cfg r2 dfS ∧
      procesar_archivo_completo env cfg r1 dfS dcp g =
        procesar_archivo_completo env cfg r2 dfS dcp g :=
  ⟨rfl, rfl⟩

/-! ## Claim C7 — spike rejection and median boundedness -/

section

attribute [local semireducible] Rat.sub Rat.add Rat.mul Rat.inv Rat.blt Rat.neg
  Rat.floor Rat.div

theorem spikeScenarioB :
    spikeClean 5 15 [some (-750), some (-752), some (-751), some (-1500), some (-749)]
      = [some (-750), some (-752), some (-751), some (-1503/2), some (-749)] := by
  decide

end

theorem spikeClean_getD (w : ℕ) (t : ℚ) (xs : List (Option ℚ)) (i : ℕ)
    (hi : i < xs.length) :
    (spikeClean w t xs).getD i none =
      match xs.getD i none, (rollingMedianO w xs).getD i none with
      | some v, some m => if t < |v - m| then some m else some v
      | x, _ => x := by
  have hm : i < (rollingMedianO w xs).length := by
    rw [length_rollingMedianO]
    exact hi
  unfold spikeClean
  rw [List.getD_eq_getElem _ _
      (by rw [List.length_map, List.length_zip]; omega),
    List.getElem_map, List.getElem_zip,
    List.getD_eq_getElem _ _ hi, List.getD_eq_getElem _ _ hm]

/-- C7: a point is flagged as a spike exactly when its absolute deviation
from the centered rolling median (width `w`, shrinking edge windows,
`min_periods = 1`) exceeds `t`, and flagged points are replaced by that
original rolling median — so immediately after spike rejection every
present value is within `t` of the original local rolling median.  The
second conjunct is Scenario B: in `[-750, -752, -751, -1500, -749]` with
window 5 and threshold 15, only index 3 is replaced, by its local median
−751.5 (the pandas median of an even window is the mean of the two middle
values, here ≈ −751). -/
theorem C7_spike_rejection_bounded (w : ℕ) (t : ℚ) (ht : 0 ≤ t)
    (xs : List (Option ℚ)) :
    ((∀ i, i < xs.length →
        (spikeClean w t xs).getD i none =
          match xs.getD i none, (rollingMedianO w xs).getD i none with
          | some v, some m => if t < |v - m| then some m else some v
          | x, _ => x) ∧
      ∀ i v m, (spikeClean w t xs).getD i none = some v →
        (rollingMedianO w xs).getD i none = some m → |v - m| ≤ t) ∧
      spikeClean 5 15 [some (-750), some (-752), some (-751), some (-1500), some (-749)]
        = [some (-750), some (-752), some (-751), some (-1503/2), some (-749)] := by
  constructor
  · constructor
    · intro i hi
      exact spikeClean_getD w t xs i hi
    · intro i v m hv hm
      by_cases hi : i < xs.length
      · rw [spikeClean_getD w t xs i hi] at hv
        rcases hx : xs.getD i none with _ | v0
        · rw [hx] at hv
          exact absurd hv (by simp)
        · simp only [hx, hm] at hv
          by_cases hd : t < |v0 - m|
          · rw [if_pos hd] at hv
            injection hv with hv
            subst hv
            simpa using ht
          · rw [if_neg hd] at hv
            injection hv with hv
            subst hv
            exact le_of_not_lt hd
      · rw [List.getD_eq_default _ _
          (by rw [length_spikeClean]; omega)] at hv
        exact absurd hv (by simp)
  · exact spikeScenarioB

/-- Witness for C7 at the Scenario-B instance: the threshold hypothesis
holds for `t = 15`, and the cleaned series replaces only the −1500 mV
spike with its local median −751.5. -/
theorem C7_witness :
    (0 : ℚ) ≤ 15 ∧
      spikeClean 5 15 [some (-750), some (-752), some (-751), some (-1500), some (-749)]
        = [some (-750), some (-752), some (-751), some (-1503/2), some (-749)] :=
  ⟨by norm_num,
    (C7_spike_rejection_bounded 5 15 (by norm_num)
      [some (-750), some (-752), some (-751), some (-1500), some (-749)]).2⟩

/-! ## Claim C9 — Direction Resolver idempotence -/

theorem pairedRows_map_aux (f : ℚ → ℚ) :
    ∀ l : List (Option ℚ × Option ℚ),
      (l.map (Prod.map id (Option.map f))).filterMap (fun p =>
          match p.1, p.2 with
          | some x, some y => some (x, y)
          | _, _ => none)
        = (l.filterMap (fun p =>
            match p.1, p.2 with
            | some x, some y => some (x, y)
            | _, _ => none)).map (fun p => (p.1, f p.2)) := by
  intro l
  induction l with
  | nil => rfl
  | cons p l ih =>
    rcases p with ⟨a, b⟩
    rcases a with _ | x <;> rcases b with _ | y <;>
      simp only [List.map_cons, List.filterMap_cons, Prod.map] <;>
      simp [ih]

theorem pairedRows_map_right (f : ℚ → ℚ) (xs ys : List (Option ℚ)) :
    pairedRows xs (ys.map (Option.map f))
      = (pairedRows xs ys).map (fun p => (p.1, f p.2)) := by
  unfold pairedRows
  rw [List.zip_map_right]
  exact pairedRows_map_aux f (xs.zip ys)

theorem lsum_sub_const (L : ℚ) (ys : List ℚ) :
    (ys.map (fun y => L - y)).sum = ys.length * L - ys.sum := by
  induction ys with
  | nil => simp
  | cons y ys ih =>
    simp only [List.map_cons, List.sum_cons, ih, List.length_cons]
    push_cast
    ring

theorem mean_map_sub (L : ℚ) (ys : List ℚ) (h : ys ≠ []) :
    meanQ (ys.map (fun y => L - y)) = L - meanQ ys := by
  have hn : (ys.length : ℚ) ≠ 0 :=
    Nat.cast_ne_zero.2 (fun h0 => h (List.length_eq_zero.1 h0))
  unfold meanQ
  rw [List.length_map, lsum_sub_const]
  field_simp
  ring

theorem lsum_map_neg {α : Type} (f : α → ℚ) (l : List α) :
    (l.map (fun x => -(f x))).sum = -((l.map f).sum) := by
  induction l with
  | nil => simp
  | cons x l ih =>
    simp only [List.map_cons, List.sum_cons, ih]
    ring

theorem zip_self {α : Type} (l : List α) : l.zip l = l.map (fun x => (x, x)) := by
  induction l with
  | nil => rfl
  | cons x l ih => simp [List.zip_cons_cons, ih]

theorem sXY_map_right (L : ℚ) (xs ys : List ℚ) (hy : ys ≠ []) :
    sXY xs (ys.map (fun y => L - y)) = -(sXY xs ys) := by
  unfold sXY
  rw [mean_map_sub L ys hy, List.zip_map_right, List.map_map]
  rw [show ((fun p : ℚ × ℚ => (p.1 - meanQ xs) * (p.2 - (L - meanQ ys))) ∘
      Prod.map id (fun y => L - y))
      = (fun p : ℚ × ℚ => -((p.1 - meanQ xs) * (p.2 - meanQ ys))) from ?_]
  · exact lsum_map_neg _ _
  · funext p
    simp only [Function.comp, Prod.map, id_eq]
    ring

theorem sXY_self_map (L : ℚ) (ys : List ℚ) (hy : ys ≠ []) :
    sXY (ys.map (fun y => L - y)) (ys.map (fun y => L - y)) = sXY ys ys := by
  unfold sXY
  rw [mean_map_sub L ys hy, List.zip_map', zip_self, List.map_map, List.map_map]
  congr 1
  apply List.map_congr_left
  intro y hyy
  simp only [Function.comp]
  ring

/-- C9: applying the Direction Resolver twice is the same as applying it
once — on an already-corrected dataset the recomputed correlation of the
flipped stations is no longer negative, so no second flip occurs. -/
theorem C9_direction_idempotent (len : ℚ) (pkE pkG : List (Option ℚ)) :
    directionResolve len pkE (directionResolve len pkE pkG)
      = directionResolve len pkE pkG := by
  by_cases hcond : 5 < (pairedRows pkE pkG).length ∧
      corrNeg ((pairedRows pkE pkG).map Prod.fst) ((pairedRows pkE pkG).map Prod.snd)
  · have hflip : directionResolve len pkE pkG
        = pkG.map (Option.map (fun y => len - y)) := by
      unfold directionResolve
      rw [if_pos hcond]
    rw [hflip]
    have hpr := pairedRows_map_right (fun y => len - y) pkE pkG
    have hfst : (pairedRows pkE (pkG.map (Option.map (fun y => len - y)))).map Prod.fst
        = (pairedRows pkE pkG).map Prod.fst := by
      rw [hpr, List.map_map]
      rfl
    have hsnd : (pairedRows pkE (pkG.map (Option.map (fun y => len - y)))).map Prod.snd
        = ((pairedRows pkE pkG).map Prod.snd).map (fun y => len - y) := by
      rw [hpr, List.map_map, List.map_map]
      rfl
    have hlen : (pairedRows pkE (pkG.map (Option.map (fun y => len - y)))).length
        = (pairedRows pkE pkG).length := by
      rw [hpr, List.length_map]
    have hne : (pairedRows pkE pkG).map Prod.snd ≠ [] := by
      have : 0 < ((pairedRows pkE pkG).map Prod.snd).length := by
        rw [List.length_map]
        omega
      exact List.ne_nil_of_length_pos this
    unfold directionResolve
    rw [if_neg]
    rintro ⟨-, h1, h2, h3⟩
    rw [hfst] at h3
    rw [hsnd] at h3
    rw [sXY_map_right len _ _ hne] at h3
    have := hcond.2.2.2
    linarith
  · have hid : directionResolve len pkE pkG = pkG := by
      unfold directionResolve
      rw [if_neg hcond]
    rw [hid]
    exact hid

/-! ## Claim C4 — voltage rescaling heuristic (corrected) -/

section

attribute [local semireducible] Rat.sub Rat.add Rat.mul Rat.inv Rat.blt Rat.neg
  Rat.floor Rat.div

/-- Counterexample to C4: in Manual Mode a channel averaging |·| = 500
(≥ 100, which the claim says must be left unscaled) is still multiplied
by 1000 — the heuristic only exists on the geospatial path. -/
theorem C4_counterexample :
    meanAbsLt100 (dfC4.getCol "On Voltage") = false ∧
      (procesar_archivo_completo envTrivial cfgStd 0 dfC4 emptyD false).getCol
          "On Voltage" = [Val.num 500000, Val.num 500000] ∧
      [Val.num 500000, Val.num 500000] ≠ [Val.num 500, Val.num 500] :=
  ⟨by decide, by decide, by decide⟩

end

/-- C4 (amended): only the geospatial path applies the mean-magnitude
heuristic (scale by 1000 iff the mean absolute value is below 100);
Manual Mode multiplies both channels by 1000 unconditionally. -/
theorem C4_amended_scaling (xs : List Val) :
    (meanAbsLt100 xs = true → escalarGeo xs = xs.map v1000r2) ∧
    (meanAbsLt100 xs = false → escalarGeo xs = xs) ∧
    escalarManual xs = xs.map v1000r2 := by
  refine ⟨?_, ?_, rfl⟩ <;>
    · intro h
      unfold escalarGeo
      rw [h]
      simp

section

attribute [local semireducible] Rat.sub Rat.add Rat.mul Rat.inv Rat.blt Rat.neg
  Rat.floor Rat.div

/-- Witness for the amended C4: a channel averaging 500 is left unscaled
by the geospatial-path heuristic. -/
theorem C4_witness : escalarGeo [Val.num 500] = [Val.num 500] :=
  (C4_amended_scaling [Val.num 500]).2.1 (by decide)

/-! ## Claim C3 — the Offset column (corrected) -/

/-- Counterexample to C3: a run on which geospatial alignment succeeds
(`error = none`) whose output table has no `Offset` column at all — the
source never computes a cross-track offset. -/
theorem C3_counterexample :
    (procesar_geometria_lrs envTrivial dfC3).2 = none ∧
      (procesar_archivo_completo envTrivial cfgStd 0 dfC3 emptyD true).hasCol
        "Offset" = false :=
  ⟨by decide, by decide⟩

end

/-- C3 (amended): the geospatial alignment never creates an `Offset`
column — whatever the outcome of the stage, a frame without `Offset`
stays without it (the snap result feeds only `PK_geom_m`, the corrected
coordinates and `Station No`). -/
theorem C3_amended_no_offset (env : Env) (df0 : DFrame) (hW : df0.WF)
    (h : df0.hasCol "Offset" = false) :
    ((procesar_geometria_lrs env df0).1).hasCol "Offset" = false :=
  (geo_pres env hW).2.2 "Offset" h (by decide)

section

attribute [local semireducible] Rat.sub Rat.add Rat.mul Rat.inv Rat.blt Rat.neg
  Rat.floor Rat.div

/-- Witness for the amended C3 at the concrete successful run. -/
theorem C3_witness :
    ((procesar_geometria_lrs envTrivial dfC3).1).hasCol "Offset" = false :=
  C3_amended_no_offset envTrivial dfC3 (by decide) (by decide)

/-! ## Claim C2 — all-missing coordinates (corrected) -/

/-- Counterexample to C2: with every coordinate missing the geometry
stage does return the structured error, but the orchestrator produces a
populated output table via Manual Mode (stations assigned, voltages
scaled) instead of halting with no output table. -/
theorem C2_counterexample :
    (procesar_geometria_lrs envTrivial dfC2).2 = some msgSinGPS ∧
      (procesar_archivo_completo envTrivial cfgStd 0 dfC2 emptyD true).nrows = 2 ∧
      (procesar_archivo_completo envTrivial cfgStd 0 dfC2 emptyD true).hasCol
        "Station No" = true ∧
      (procesar_archivo_completo envTrivial cfgStd 0 dfC2 emptyD true).getCol
        "On Voltage" = [Val.num 1000, Val.num 1000] :=
  ⟨by decide, by decide, by decide, by decide⟩

end

/-- C2 (amended): whenever the geometry stage reports an error — the
all-coordinates-missing condition included — the orchestrator does not
halt: it runs the Manual-Mode continuation on the partially processed
frame and still produces an output table. -/
theorem C2_amended_fallback (env : Env) (cfg : Config) (r : ℕ) (dfS dcp : DFrame)
    (msg : String) (h : (procesar_geometria_lrs env dfS).2 = some msg) :
    procesar_archivo_completo env cfg r dfS dcp true
      = postProceso env cfg
          (manualProcess env cfg r (procesar_geometria_lrs env dfS).1) dcp := by
  unfold procesar_archivo_completo
  rcases hg : procesar_geometria_lrs env dfS with ⟨d, _ | m⟩
  · rw [hg] at h
    exact absurd h (by simp)
  · simp only [hg, if_true]

section

attribute [local semireducible] Rat.sub Rat.add Rat.mul Rat.inv Rat.blt Rat.neg
  Rat.floor Rat.div

/-- Witness for the amended C2 at the all-missing-coordinates input. -/
theorem C2_witness :
    procesar_archivo_completo envTrivial cfgStd 0 dfC2 emptyD true
      = postProceso envTrivial cfgStd
          (manualProcess envTrivial cfgStd 0
            (procesar_geometria_lrs envTrivial dfC2).1) emptyD :=
  C2_amended_fallback envTrivial cfgStd 0 dfC2 emptyD msgSinGPS (by decide)

end

/-! ## Claim C1 — the Annotation Merger (corrected) -/

section

attribute [local semireducible] Rat.sub Rat.add Rat.mul Rat.inv Rat.blt Rat.neg
  Rat.floor Rat.div

/-- Counterexample to C1, in the Scenario-D setting: a survey row snapped
to station 500.0 with original comment `orig`, and an auxiliary record at
distance 499.6 (within tolerance 1.0) labelled `Anomaly X`.  The source
matches only on exact `Data No` equality (no distance/station matching at
all, no tolerance), and it never concatenates: the output comment stays
`orig`, not `orig | Anomaly X`. -/
theorem C1_counterexample :
    (procesar_archivo_completo envTrivial cfgStd 0 dfC1 dcpC1 true).getCol
        "Station No" = [Val.num 500] ∧
      (procesar_archivo_completo envTrivial cfgStd 0 dfC1 dcpC1 true).getCol
        "Comment" = [Val.str "orig"] ∧
      Val.str "orig" ≠ Val.str "orig | Anomaly X" :=
  ⟨by decide, by decide, by decide⟩

end

/-- C1 (amended): the Annotation Merger matches survey rows and auxiliary
records by exact equality on the `Data No` key (first match, i.e. the
keep-first deduplication), not by nearest distance within a tolerance; a
matched label only fills rows whose `Comment` is missing, and pre-existing
comments are preserved unmodified, never concatenated. -/
theorem C1_amended_merge (survey dcp : DFrame) (c : String × List Val)
    (h1 : dcp.nrows ≠ 0) (h2 : survey.hasCol "Data No" = true)
    (h3 : dcp.cols.get? 6 = some c) (h4 : c.1 ≠ "")
    (h5 : dcp.hasCol "Data No" = true) (h6 : c.1 ≠ "Data No")
    (h7 : survey.hasCol c.1 = false) (h8 : survey.hasCol "Comment" = true) :
    (mergeDCP survey dcp).getCol "Comment"
      = List.zipWith fillNa (survey.getCol "Comment")
          ((survey.getCol "Data No").map
            (lookupFirst (dcp.getCol "Data No") (dcp.getCol c.1))) := by
  have hcc : c.1 ≠ "Comment" := by
    intro he
    rw [he, h8] at h7
    exact Bool.noConfusion h7
  unfold mergeDCP
  rw [if_neg (by
    rintro (hz | hz)
    · exact h1 hz
    · exact hz h2)]
  simp only [h3]
  rw [if_neg h4, if_neg (by rw [h5]; simp), if_neg h6,
    if_neg (by rw [h7]; simp), if_neg hcc]
  rw [getCol_dropCols _ (by
    simp only [List.contains_cons, List.contains_nil, Bool.or_false]
    exact decide_eq_false (Ne.symm hcc))]
  unfold mergeClean
  rw [if_pos (by
    rw [hasCol_setCol]
    simp [h8])]
  rw [getCol_setCol_self, getCol_setCol_ne _ _ (Ne.symm hcc), getCol_setCol_self]
  rfl

section

attribute [local semireducible] Rat.sub Rat.add Rat.mul Rat.inv Rat.blt Rat.neg
  Rat.floor Rat.div

/-- Witness for the amended C1: of two survey rows, the one with an
existing comment keeps it, and the one with a missing comment and a
matching `Data No` key receives the label. -/
theorem C1_witness :
    (mergeDCP surveyW dcpW7).getCol "Comment"
      = [Val.str "orig", Val.str "Anomaly X"] := by
  rw [C1_amended_merge surveyW dcpW7 ("Observacion", [Val.str "Anomaly X"])
    (by decide) (by decide) (by decide) (by decide) (by decide) (by decide)
    (by decide) (by decide)]
  decide

end

/-! ## Claim C6 — coordinate imputation (corrected)

The least-squares lemmas: `olsSlope`/`olsIntercept` satisfy the normal
equations and minimise the sum of squared errors whenever the design is
non-degenerate, justifying the reading of the imputation as *the*
least-squares fit. -/

theorem lsum_map_add {α : Type} (f g : α → ℚ) (l : List α) :
    (l.map (fun p => f p + g p)).sum = (l.map f).sum + (l.map g).sum := by
  induction l with
  | nil => simp
  | cons x l ih =>
    simp only [List.map_cons, List.sum_cons, ih]
    ring

theorem lsum_map_sub {α : Type} (f g : α → ℚ) (l : List α) :
    (l.map (fun p => f p - g p)).sum = (l.map f).sum - (l.map g).sum := by
  induction l with
  | nil => simp
  | cons x l ih =>
    simp only [List.map_cons, List.sum_cons, ih]
    ring

theorem lsum_map_mul_left {α : Type} (c : ℚ) (f : α → ℚ) (l : List α) :
    (l.map (fun p => c * f p)).sum = c * (l.map f).sum := by
  induction l with
  | nil => simp
  | cons x l ih =>
    simp only [List.map_cons, List.sum_cons, ih]
    ring

theorem lsum_map_sub_constR {α : Type} (f : α → ℚ) (c : ℚ) (l : List α) :
    (l.map (fun p => f p - c)).sum = (l.map f).sum - l.length * c := by
  induction l with
  | nil => simp
  | cons x l ih =>
    simp only [List.map_cons, List.sum_cons, ih, List.length_cons]
    push_cast
    ring

theorem lsum_sq_nonneg {α : Type} (f : α → ℚ) (l : List α) :
    0 ≤ (l.map (fun p => (f p) ^ 2)).sum := by
  induction l with
  | nil => simp
  | cons x l ih =>
    simp only [List.map_cons, List.sum_cons]
    have := sq_nonneg (f x)
    linarith

theorem lsum_dev_zero {α : Type} (f : α → ℚ) (l : List α) (h : l ≠ []) :
    (l.map (fun p => f p - meanQ (l.map f))).sum = 0 := by
  have hn : ((l.length : ℚ)) ≠ 0 :=
    Nat.cast_ne_zero.2 (fun h0 => h (List.length_eq_zero.1 h0))
  rw [lsum_map_sub_constR]
  unfold meanQ
  rw [List.length_map, mul_comm, div_mul_cancel₀ _ hn, sub_self]

theorem sXY_pts (pts : List (ℚ × ℚ)) :
    sXY (pts.map Prod.fst) (pts.map Prod.snd)
      = (pts.map (fun p => (p.1 - meanQ (pts.map Prod.fst))
          * (p.2 - meanQ (pts.map Prod.snd)))).sum := by
  unfold sXY
  rw [List.zip_map', List.map_map]
  rfl

theorem sXY_self_pts {α : Type} (f : α → ℚ) (l : List α) :
    sXY (l.map f) (l.map f)
      = (l.map (fun p => (f p - meanQ (l.map f)) * (f p - meanQ (l.map f)))).sum := by
  unfold sXY
  rw [List.zip_map', List.map_map]
  rfl

theorem ols_resid_sum (pts : List (ℚ × ℚ)) (h : pts ≠ []) :
    (pts.map (fun p => p.2 - olsSlope pts * p.1 - olsIntercept pts)).sum = 0 := by
  have hpt : ∀ p ∈ pts, p.2 - olsSlope pts * p.1 - olsIntercept pts
      = (p.2 - meanQ (pts.map Prod.snd))
        - olsSlope pts * (p.1 - meanQ (pts.map Prod.fst)) := by
    intro p _
    unfold olsIntercept
    ring
  rw [List.map_congr_left hpt, lsum_map_sub]
  rw [show (fun p : ℚ × ℚ => olsSlope pts * (p.1 - meanQ (pts.map Prod.fst)))
      = (fun p : ℚ × ℚ => olsSlope pts * ((fun q : ℚ × ℚ => q.1 - meanQ (pts.map Prod.fst)) p))
    from rfl, lsum_map_mul_left]
  rw [show (fun q : ℚ × ℚ => q.1 - meanQ (pts.map Prod.fst))
      = (fun q : ℚ × ℚ => Prod.fst q - meanQ (pts.map Prod.fst)) from rfl]
  rw [show (fun p : ℚ × ℚ => p.2 - meanQ (pts.map Prod.snd))
      = (fun p : ℚ × ℚ => Prod.snd p - meanQ (pts.map Prod.snd)) from rfl]
  rw [lsum_dev_zero Prod.fst pts h, lsum_dev_zero Prod.snd pts h]
  ring

theorem lsum_x_dev {α : Type} (f g : α → ℚ) (l : List α) (h : l ≠ []) :
    (l.map (fun p => f p * (g p - meanQ (l.map g)))).sum
      = (l.map (fun p => (f p - meanQ (l.map f)) * (g p - meanQ (l.map g)))).sum := by
  have hpt : ∀ p ∈ l, f p * (g p - meanQ (l.map g))
      = (f p - meanQ (l.map f)) * (g p - meanQ (l.map g))
        + meanQ (l.map f) * (g p - meanQ (l.map g)) := by
    intro p _
    ring
  rw [List.map_congr_left hpt, lsum_map_add]
  rw [show (fun p : α => meanQ (l.map f) * (g p - meanQ (l.map g)))
      = (fun p : α => meanQ (l.map f) * ((fun q => g q - meanQ (l.map g)) p)) from rfl,
    lsum_map_mul_left]
  rw [show (fun q : α => g q - meanQ (l.map g))
      = (fun q : α => g q - meanQ (l.map g)) from rfl]
  rw [lsum_dev_zero g l h]
  ring

theorem ols_resid_dot_x (pts : List (ℚ × ℚ))
    (hS : sXY (pts.map Prod.fst) (pts.map Prod.fst) ≠ 0) :
    (pts.map (fun p => p.1 * (p.2 - olsSlope pts * p.1 - olsIntercept pts))).sum = 0 := by
  have hne : pts ≠ [] := by
    rintro rfl
    exact hS (by simp [sXY])
  have hpt : ∀ p ∈ pts, p.1 * (p.2 - olsSlope pts * p.1 - olsIntercept pts)
      = p.1 * (p.2 - meanQ (pts.map Prod.snd))
        - olsSlope pts * (p.1 * (p.1 - meanQ (pts.map Prod.fst))) := by
    intro p _
    unfold olsIntercept
    ring
  rw [List.map_congr_left hpt, lsum_map_sub]
  rw [show (fun p : ℚ × ℚ => olsSlope pts * (p.1 * (p.1 - meanQ (pts.map Prod.fst))))
      = (fun p : ℚ × ℚ => olsSlope pts
          * ((fun q : ℚ × ℚ => q.1 * (q.1 - meanQ (pts.map Prod.fst))) p)) from rfl,
    lsum_map_mul_left]
  have hA := lsum_x_dev (Prod.fst) (Prod.snd) pts hne
  have hB := lsum_x_dev (Prod.fst) (Prod.fst) pts hne
  rw [show (fun p : ℚ × ℚ => p.1 * (p.2 - meanQ (pts.map Prod.snd)))
      = (fun p : ℚ × ℚ => Prod.fst p * (Prod.snd p - meanQ (pts.map Prod.snd))) from rfl,
    hA]
  rw [show (fun q : ℚ × ℚ => q.1 * (q.1 - meanQ (pts.map Prod.fst)))
      = (fun q : ℚ × ℚ => Prod.fst q * (Prod.fst q - meanQ (pts.map Prod.fst))) from rfl,
    hB]
  rw [← sXY_pts, ← sXY_self_pts Prod.fst pts]
  unfold olsSlope
  rw [div_mul_cancel₀ _ hS, sub_self]

theorem olsOptimal (pts : List (ℚ × ℚ))
    (hS : 0 < sXY (pts.map Prod.fst) (pts.map Prod.fst)) (a b : ℚ) :
    sse pts (olsSlope pts) (olsIntercept pts) ≤ sse pts a b := by
  have hS' : sXY (pts.map Prod.fst) (pts.map Prod.fst) ≠ 0 := ne_of_gt hS
  have hne : pts ≠ [] := by
    rintro rfl
    rw [show sXY (List.map Prod.fst ([] : List (ℚ × ℚ)))
      (List.map Prod.fst ([] : List (ℚ × ℚ))) = 0 from by simp [sXY]] at hS
    exact lt_irrefl 0 hS
  have h1 := ols_resid_sum pts hne
  have h2 := ols_resid_dot_x pts hS'
  unfold sse
  have hpt : ∀ p ∈ pts,
      (p.2 - a * p.1 - b) ^ 2
        = ((p.2 - olsSlope pts * p.1 - olsIntercept pts) ^ 2
            + ((olsSlope pts - a) * p.1 + (olsIntercept pts - b)) ^ 2)
          + ((2 * (olsSlope pts - a))
              * (p.1 * (p.2 - olsSlope pts * p.1 - olsIntercept pts))
            + (2 * (olsIntercept pts - b))
              * (p.2 - olsSlope pts * p.1 - olsIntercept pts)) := by
    intro p _
    ring
  rw [List.map_congr_left hpt, lsum_map_add, lsum_map_add, lsum_map_add,
    lsum_map_mul_left, lsum_map_mul_left, h1, h2]
  have hsq := lsum_sq_nonneg
    (fun p : ℚ × ℚ => (olsSlope pts - a) * p.1 + (olsIntercept pts - b)) pts
  linarith

/-- C6 (amended): the imputation trigger counts rows with a non-missing
*coordinate* only (more than 2), not rows where both coordinate and
sensor distance are present; when every sensor distance is present the
two counts agree and every missing coordinate is filled with the
prediction `a·distance + b` of the fit over the coordinate-present rows,
while with trigger count ≤ 2 (or nothing missing) the column is returned
unchanged.  The fit is the least-squares one: for a non-degenerate sample
its coefficients minimise the sum of squared errors. -/
theorem C6_amended_imputation (xs ys : List (Option ℚ))
    (hx : ∀ x ∈ xs, Option.isSome x = true) :
    (imputeSeries xs ys
        = some (if (ys.any fun y => y.isNone) ∧ 2 < ys.countP (fun y => y.isSome)
            then fillOLS xs ys else ys)) ∧
    (0 < sXY ((pairedRows xs ys).map Prod.fst) ((pairedRows xs ys).map Prod.fst) →
      ∀ a b : ℚ,
        sse (pairedRows xs ys) (olsSlope (pairedRows xs ys))
            (olsIntercept (pairedRows xs ys))
          ≤ sse (pairedRows xs ys) a b) := by
  constructor
  · have hxn : xs.any (fun x => x.isNone) = false := by
      rw [List.any_eq_false]
      intro x hxm
      rcases x with _ | v
      · exact absurd (hx none hxm) (by simp)
      · simp
    unfold imputeSeries
    split
    · rw [if_neg (by rw [hxn]; simp)]
    · rfl
  · intro hS a b
    exact olsOptimal (pairedRows xs ys) hS a b

section

attribute [local semireducible] Rat.sub Rat.add Rat.mul Rat.inv Rat.blt Rat.neg
  Rat.floor Rat.div

/-- Counterexample to C6: three rows carry both coordinate and sensor
distance, a coordinate is missing, yet no imputation happens — the
source's trigger counts four coordinate-present rows, attempts the fit,
and the missing sensor distance makes sklearn raise, aborting the
geospatial stage (`imputeSeries` = `none`, `imputeStep` = `error`). -/
theorem C6_counterexample :
    (pairedRows [some 0, some 100, some 200, none, some 400]
        [some 1, some 2, some 3, some 9, none]).length = 3 ∧
      ([some (1 : ℚ), some 2, some 3, some 9, none].any fun y => y.isNone) = true ∧
      imputeSeries [some 0, some 100, some 200, none, some 400]
        [some 1, some 2, some 3, some 9, none] = none ∧
      imputeStep dfC6 "Lat" = .error dfC6 :=
  ⟨by decide, by decide, by decide, by decide⟩

/-- Witness for the amended C6 at the Scenario-A instance: sensor
distances 0..400, longitude missing at index 2, imputed exactly with the
fit's prediction 12 at distance 200. -/
theorem C6_witness :
    imputeSeries ([0, 100, 200, 300, 400].map some)
        [some 10, some 11, none, some 13, some 14]
      = some ([10, 11, 12, 13, 14].map some) := by
  rw [(C6_amended_imputation ([0, 100, 200, 300, 400].map some)
    [some 10, some 11, none, some 13, some 14] (by decide)).1]
  decide

end

/-! ## Claim C8 — row-count invariance -/

theorem pipeline_pres (env : Env) (cfg : Config) (r : ℕ) {dfS : DFrame}
    (dcp : DFrame) (g : Bool) (hW : dfS.WF) :
    (procesar_archivo_completo env cfg r dfS dcp g).WF ∧
      (procesar_archivo_completo env cfg r dfS dcp g).nrows = dfS.nrows := by
  unfold procesar_archivo_completo
  cases g with
  | false =>
    simp only [Bool.false_eq_true, if_false]
    obtain ⟨h1, h2⟩ := manualProcess_pres env cfg r hW
    obtain ⟨h3, h4⟩ := postProceso_pres env cfg dcp h1
    exact ⟨h3, h4.trans h2⟩
  | true =>
    simp only [if_true]
    obtain ⟨hgW, hgn, -⟩ := geo_pres env hW
    rcases hg : procesar_geometria_lrs env dfS with ⟨d, _ | m⟩
    · rw [hg] at hgW hgn
      simp only [hg]
      obtain ⟨h1, h2⟩ := geoVolts_pres hgW
      obtain ⟨h3, h4⟩ := postProceso_pres env cfg dcp h1
      exact ⟨h3, h4.trans (h2.trans hgn)⟩
    · rw [hg] at hgW hgn
      simp only [hg]
      obtain ⟨h1, h2⟩ := manualProcess_pres env cfg r hgW
      obtain ⟨h3, h4⟩ := postProceso_pres env cfg dcp h1
      exact ⟨h3, h4.trans (h2.trans hgn)⟩

/-- C8: for every well-formed valid input survey table, on either
pipeline path the output table has exactly as many rows as the input
(every column of the well-formed output has that length), and in
particular the annotation merge neither adds nor drops survey rows. -/
theorem C8_row_count_invariant (env : Env) (cfg : Config) (r : ℕ)
    (dfS dcp : DFrame) (g : Bool) (hW : dfS.WF) (hv : validInput dfS = true) :
    ((procesar_archivo_completo env cfg r dfS dcp g).WF ∧
      (procesar_archivo_completo env cfg r dfS dcp g).nrows = dfS.nrows) ∧
    ((mergeDCP dfS dcp).WF ∧ (mergeDCP dfS dcp).nrows = dfS.nrows) :=
  ⟨pipeline_pres env cfg r dcp g hW, mergeDCP_pres dcp hW⟩

section

attribute [local semireducible] Rat.sub Rat.add Rat.mul Rat.inv Rat.blt Rat.neg
  Rat.floor Rat.div

/-- Witness for C8 on a concrete valid two-row table. -/
theorem C8_witness :
    dfC8w.WF ∧ validInput dfC8w = true ∧
      (procesar_archivo_completo envTrivial cfgStd 0 dfC8w emptyD false).nrows
        = dfC8w.nrows :=
  ⟨by decide, by decide,
    ((C8_row_count_invariant envTrivial cfgStd 0 dfC8w emptyD false (by decide)
      (by decide)).1).2⟩

end

end CIPS
